import Mathlib

/-!
Verification of the class-bot Teams protocol-adaptation layer (src/teams.js).

The development shallowly embeds the functions of `src/teams.js`:
JSON values produced by `JSON.parse` are an inductive `Json`; the
(fallible) `JSON.parse` itself is an oracle parameter `jp : String → Option Json`
(`none` models a parse exception); code that can throw returns `Except Unit`;
the promise/microtask behaviour of `skypeApiCall` is an explicit small-step
machine with a microtask queue, mirroring the attach order of the callbacks
registered on `this._skypeAuth`.
-/

namespace ClassBot

/-- JSON values as produced by `JSON.parse`. Objects are field lists. -/
inductive Json where
  | str : String → Json
  | num : Int → Json
  | jbool : Bool → Json
  | null : Json
  | arr : List Json → Json
  | obj : List (String × Json) → Json

/-- Field access `payload.field` on a parsed value: `none` when absent or not an object. -/
def getField (j : Json) (k : String) : Option Json :=
  match j with
  | .obj fs => fs.lookup k
  | _ => none

/-- The JS `'k' in v` check: property lookup on objects, `false` on arrays,
a thrown `TypeError` (modelled `Except.error`) on primitives and `null`. -/
def inField (j : Json) (k : String) : Except Unit Bool :=
  match j with
  | .obj fs => .ok (fs.lookup k).isSome
  | .arr _ => .ok false
  | _ => .error ()

/-- JS string coercion of a parsed value (the implicit `ToString` that
`JSON.parse` applies to a non-string argument). Structural fuel stands in
for the nested recursion into arrays; 64 levels exceed any value the
devtools stream produces, and every non-array case ignores the fuel. -/
def jsToStringFuel : Nat → Json → String
  | 0, _ => ""
  | _ + 1, .str s => s
  | _ + 1, .num n => toString n
  | _ + 1, .jbool b => cond b "true" "false"
  | _ + 1, .null => "null"
  | f + 1, .arr xs =>
      String.intercalate "," (xs.map (fun x => match x with | .null => "" | y => jsToStringFuel f y))
  | _ + 1, .obj _ => "[object Object]"

def jsToString (j : Json) : String := jsToStringFuel 64 j

/-! ## Frame Decoder (`_handleSocketData`, lines 314-357) -/

/-- The scan `while (colonMatches < 3 && i < length) ...; substring(i)`:
drop everything up to and including the n-th colon (the whole string is
consumed when it holds fewer colons). -/
def skipColons : Nat → List Char → List Char
  | 0, cs => cs
  | _ + 1, [] => []
  | n + 1, c :: cs => if c = ':' then skipColons n cs else skipColons (n + 1) cs

/-- The raw payload extracted from a captured frame string:
`msg.params.response.payloadData.substring(i)` after the 3-colon scan. -/
def rawPayloadOf (pd : String) : String := String.mk (skipColons 3 pd.toList)

/-- Body of the `try` block of the frame branch, before the `catch`:
`.error` is a thrown exception, `.ok none` an early `return` (not applicable),
`.ok (some inner)` the inner payload handed to `_processMessage`. -/
def frameTry (jp : String → Option Json) (pd : String) : Except Unit (Option Json) :=
  match pd.toList with
  | [] => .ok none
  | c :: _ =>
    if c ≠ '3' then .ok none
    else
      let raw := rawPayloadOf pd
      match raw.toList with
      | [] => .ok none
      | r :: _ =>
        if r ≠ '\x7b' then .ok none
        else
          match jp raw with
          | none => .error ()
          | some payload =>
            match payload with
            | .obj fs =>
              match fs.lookup "body" with
              | none => .ok none
              | some body =>
                match jp (jsToString body) with
                | none => .error ()
                | some inner => .ok (some inner)
            | .arr _ => .ok none
            | _ => .error ()

/-- Outcome of the `Network.webSocketFrameReceived` branch. -/
inductive FrameOutcome where
  | notApplicable
  | loggedDiscard
  | forwarded (inner : Json)

/-- The frame branch with its `catch`: decode errors and a throwing
classifier (`procThrows`) are caught and logged, never propagated. -/
def handleFrame (jp : String → Option Json) (procThrows : Json → Bool) (pd : String) :
    FrameOutcome :=
  match frameTry jp pd with
  | .error _ => .loggedDiscard
  | .ok none => .notApplicable
  | .ok (some inner) => if procThrows inner then .loggedDiscard else .forwarded inner

/-- Result of `_handleSocketData` when it does not throw. -/
inductive SocketResult where
  | emitSkypeToken (r : Option Json)
  | emitTeamsToken (r : Option Json)
  | idNoMatch
  | frame (o : FrameOutcome)
  | ignored

/-- `msg.params.response.payloadData` when present as a string; `none` models
the chain throwing or the field missing (in both real cases the access or the
subsequent indexing throws inside the `try` block and is caught). -/
def getPayloadString (msg : Json) : Option String :=
  match getField msg "params" with
  | none => none
  | some params =>
    match getField params "response" with
    | none => none
    | some response =>
      match getField response "payloadData" with
      | some (.str s) => some s
      | _ => none

/-- `_handleSocketData` in full. The initial `JSON.parse(data.toString())`
(line 315) and the `'id' in msg` check (line 317) sit OUTSIDE the `try`
block, so their exceptions escape the handler (`Except.error`). -/
def handleSocketData (jp : String → Option Json) (procThrows : Json → Bool)
    (data : String) : Except Unit SocketResult :=
  match jp data with
  | none => .error ()
  | some msg =>
    match inField msg "id" with
    | .error _ => .error ()
    | .ok true =>
      match getField msg "id" with
      | some (.num 3) => .ok (.emitSkypeToken (getField msg "result"))
      | some (.num 2) => .ok (.emitTeamsToken (getField msg "result"))
      | _ => .ok .idNoMatch
    | .ok false =>
      match inField msg "method" with
      | .error _ => .error ()
      | .ok false => .ok .ignored
      | .ok true =>
        match getField msg "method" with
        | some (.str m) =>
          if m = "Network.webSocketFrameReceived" then
            match getPayloadString msg with
            | some pd => .ok (.frame (handleFrame jp procThrows pd))
            | none => .ok (.frame .loggedDiscard)
          else .ok .ignored
        | _ => .ok .ignored

/-! ## Envelope Classifier / Meeting Correlator (`_processMessage`, lines 213-294) -/

/-- One participant record extracted from ended-call markup. -/
structure Participant where
  pid : String
  pname : String
deriving DecidableEq

/-- The Meeting record built on `pending → resolved` (lines 279-287):
`id` and `channel.id` come from the envelope's resource, the remaining
fields are copied out of the parsed meeting description (absent fields
are `undefined`, hence `Option Json`). -/
structure Meeting where
  mid : String
  title : Option Json
  joinUrl : Option Json
  startedBy : Option Json
  channelId : String

/-- The object emitted with MEETING_ENDED (lines 240-246). -/
structure EndedMeeting where
  mid : String
  participants : List Participant
  channelId : String

/-- Events emitted by `_processMessage`. -/
inductive Ev where
  | newMeeting (m : Meeting)
  | meetingEnded (m : EndedMeeting)

/-- A `this._cache.meetings` entry: a bare start timestamp (ms), or the
resolved Meeting cached under its own id at line 290. -/
inductive CacheEntry where
  | startedAt (t : Int)
  | resolvedMeeting (m : Meeting)

/-- The `meetings` cache, a JS object keyed by id. -/
abbrev Cache := List (String × CacheEntry)

/-- JS property assignment: replace the value of an existing key in place,
else append. -/
def setKey (k : String) (v : CacheEntry) (c : Cache) : Cache :=
  if (List.lookup k c).isSome then
    c.map (fun p => if p.1 = k then (k, v) else p)
  else c ++ [(k, v)]

/-- JS `delete obj[k]`. -/
def eraseKey (k : String) (c : Cache) : Cache :=
  c.filter (fun p => p.1 ≠ k)

/-- `Date.now() - entry > 60 * 1000` (line 260-262). When the entry is a
resolved Meeting object (cached at line 290 under the meeting's skypeguid),
the JS subtraction yields `NaN` and the comparison is `false`. -/
def staleExceeds (e : CacheEntry) (now : Int) : Bool :=
  match e with
  | .startedAt t => decide (now - t > 60 * 1000)
  | .resolvedMeeting _ => false

/-- Index of the first occurrence of `pat` in `s`, if any. -/
def findSub (pat : List Char) : List Char → Option Nat
  | [] => if pat = [] then some 0 else none
  | s@(_ :: rest) =>
    if pat.isPrefixOf s then some 0
    else (findSub pat rest).map (fun n => n + 1)

/-- `content.indexOf(pat) >= 0`. -/
def containsSub (s pat : List Char) : Bool := (findSub pat s).isSome

/-- A match of `/<part [^>]*>/` at the head of the suffix: the literal
`"<part "` followed by non-`>` characters up to a closing `>`; returns the
match length. -/
def matchPartAt (s : List Char) : Option Nat :=
  if ("<part ".toList).isPrefixOf s then
    match findSub ['>'] (s.drop 6) with
    | some k => some (6 + k + 1)
    | none => none
  else none

/-- Start indices of the non-overlapping matches of `/<part [^>]*>/g`
(line 218), left to right, resuming after each match like `matchAll`.
`fuel` is the length of the scanned suffix. -/
def partIdxAux : Nat → List Char → Nat → List Nat
  | 0, _, _ => []
  | _ + 1, [], _ => []
  | fuel + 1, s@(_ :: rest), i =>
    match matchPartAt s with
    | some len => i :: partIdxAux fuel (s.drop len) (i + len)
    | none => partIdxAux fuel rest (i + 1)

/-- The `reduce` of lines 218-224: indices `[i1, ..., ik]` become the
substring ranges `[[i1,i2], ..., [i(k-1),ik], [ik]]`. -/
def toRanges : List Nat → List (Nat × Option Nat)
  | [] => []
  | [a] => [(a, none)]
  | a :: b :: rest => (a, some b) :: toRanges (b :: rest)

/-- `content.substring.apply(content, range)` (line 226). -/
def sliceRange (cs : List Char) : Nat × Option Nat → List Char
  | (a, some b) => (cs.drop a).take (b - a)
  | (a, none) => cs.drop a

/-- A capture of `/pat([^stop]+)/`: the first position where `pat` matches
and is followed by at least one non-`stop` character; the capture is the
maximal such run (the JS regex backtracks past positions where the
one-or-more capture would be empty). -/
def captureAfter (pat : List Char) (stop : Char) : List Char → Option (List Char)
  | [] => none
  | s@(_ :: rest) =>
    if pat.isPrefixOf s then
      let run := (s.drop pat.length).takeWhile (fun c => c ≠ stop)
      if run.isEmpty then captureAfter pat stop rest else some run
    else captureAfter pat stop rest

/-- `id.startsWith('28')` (line 230), as a character-level prefix test. -/
def hasBotPrefix (s : String) : Bool := ("28".toList).isPrefixOf s.toList

/-- Lines 226-236 for one `<part ...` slice: `identity="([^"]+)` must match
(else `idMatch[1]` throws a TypeError, modelled `.error`); an identity with
the bot prefix `28` yields `null`; otherwise `<displayName>([^<]+)` must
match in turn. -/
def partRecord (part : List Char) : Except Unit (Option Participant) :=
  match captureAfter ("identity=\"".toList) '"' part with
  | none => .error ()
  | some idCs =>
    let pid := String.mk idCs
    if hasBotPrefix pid then .ok none
    else
      match captureAfter ("<displayName>".toList) '<' part with
      | none => .error ()
      | some nameCs => .ok (some ⟨pid, String.mk nameCs⟩)

/-- The `.map(...).filter(...)` of lines 225-238: collect the non-`null`
records, propagating the first thrown TypeError. -/
def collectParts : List (List Char) → Except Unit (List Participant)
  | [] => .ok []
  | p :: rest =>
    match partRecord p with
    | .error e => .error e
    | .ok none => collectParts rest
    | .ok (some r) => (collectParts rest).map (fun rs => r :: rs)

/-- Participant extraction from ended-call markup (lines 218-238). -/
def participantsOf (content : String) : Except Unit (List Participant) :=
  let cs := content.toList
  collectParts ((toRanges (partIdxAux cs.length cs 0)).map (sliceRange cs))

/-- The fields of `message.resource` that `_processMessage` reads.
`sentTo` is `resource.to`; `properties` is the resource's `properties`
object (its `meeting` value is coerced to a string and re-parsed by
`JSON.parse` at line 272). -/
structure Resource where
  messagetype : String
  content : String
  rid : String
  skypeguid : String
  sentTo : String
  properties : List (String × Json)

/-- A decoded envelope: `resourceType`, the `message.time` timestamp as
`(new Date(message.time)).getTime()` in epoch ms, and the resource. -/
structure Envelope where
  resourceType : String
  time : Int
  resource : Resource

/-- Result of one `_processMessage` call: the cache afterwards, the events
emitted, and whether the call threw (the caller's `catch` logs it). Every
throw point in the source precedes any cache mutation, so the cache is
returned unchanged on a throw. -/
structure PMResult where
  cache : Cache
  events : List Ev
  threw : Bool

/-- `_processMessage` (lines 213-294), at wall-clock `now` (`Date.now()`). -/
def processMessage (jp : String → Option Json) (now : Int) (cache : Cache)
    (msg : Envelope) : PMResult :=
  if msg.resourceType = "NewMessage" ∧ msg.resource.messagetype = "Event/Call" then
    if containsSub msg.resource.content.toList ("<ended/>".toList) then
      match participantsOf msg.resource.content with
      | .error _ => ⟨cache, [], true⟩
      | .ok ps =>
        ⟨cache, [.meetingEnded ⟨msg.resource.skypeguid, ps, msg.resource.sentTo⟩], false⟩
    else
      ⟨setKey msg.resource.rid (.startedAt msg.time) cache, [], false⟩
  else
    if msg.resourceType = "MessageUpdate" ∧ msg.resource.messagetype = "Event/Call" then
      match List.lookup msg.resource.rid cache with
      | none => ⟨cache, [], false⟩
      | some entry =>
        if staleExceeds entry now then
          ⟨eraseKey msg.resource.rid cache, [], false⟩
        else
          match List.lookup "meeting" msg.resource.properties with
          | none => ⟨cache, [], false⟩
          | some mval =>
            match jp (jsToString mval) with
            | none => ⟨cache, [], true⟩
            | some mdata =>
              match inField mdata "meetingJoinUrl" with
              | .error _ => ⟨cache, [], true⟩
              | .ok false => ⟨cache, [], false⟩
              | .ok true =>
                let meeting : Meeting :=
                  ⟨msg.resource.skypeguid, getField mdata "meetingtitle",
                   getField mdata "meetingJoinUrl", getField mdata "organizerId",
                   msg.resource.sentTo⟩
                ⟨setKey meeting.mid (.resolvedMeeting meeting)
                   (eraseKey msg.resource.rid cache),
                 [.newMeeting meeting], false⟩
    else ⟨cache, [], false⟩

/-- Process a sequence of envelopes, each at its own wall-clock instant;
a throw is caught by `_handleSocketData` and processing continues. -/
def processAll (jp : String → Option Json) : List (Int × Envelope) → Cache →
    Cache × List Ev
  | [], c => (c, [])
  | (now, m) :: rest, c =>
    let r := processMessage jp now c m
    let (c2, evs) := processAll jp rest r.cache
    (c2, r.events ++ evs)

/-! ## Credential Manager (`skypeApiCall`, lines 171-195, with
`_fetchSkypeRefreshToken` and `_refreshSkypeToken`)

`skypeApiCall`'s promise choreography is embedded as a small-step machine:
a microtask queue of the continuations the source registers on
`this._skypeAuth`, plus the token store and the in-flight marker. Network
completions (the refresh-token extraction and the token exchange) fire as
macrotasks, i.e. only when the microtask queue has drained. -/

/-- A cached token, `{token, expires}` (expiry in epoch seconds). -/
structure TokenData where
  token : String
  expires : Int

/-- Truthiness-and-freshness test of lines 176 and 179:
`tokens.x && tokens.x.token && now < tokens.x.expires - 60`. -/
def tokenValid : Option TokenData → Int → Bool
  | some d, now => (!(d.token == "")) && decide (now < d.expires - 60)
  | none, _ => false

/-- Continuations registered on `this._skypeAuth`:
`call c` re-invokes `skypeApiCall` for caller `c` (line 173),
`clearAuth` is the `finally` of line 184, `apiReq c` is the request body
of lines 187-194. -/
inductive Cb where
  | call (c : Nat)
  | clearAuth
  | apiReq (c : Nat)
deriving DecidableEq

/-- What `this._skypeAuth` holds: `undefined`, a pending auth promise, or
an already-settled promise not yet cleared by its `finally`. -/
inductive AuthStat where
  | noAuth
  | pendingAuth
  | settledAuth
deriving DecidableEq

/-- Progress of the in-flight network work backing the auth promise. -/
inductive NetPhase where
  | idle
  | fetching
  | exchanging
deriving DecidableEq

/-- Network operations, logged when issued: the devtools refresh-token
extraction (`_fetchSkypeRefreshToken`) and the authz HTTP exchange
(`_refreshSkypeToken`). -/
inductive NetEv where
  | fetchIssued
  | exchangeIssued
deriving DecidableEq

/-- Environment of a run: the frozen wall clock (epoch seconds) and the
values the two network operations come back with. -/
structure MEnv where
  now : Int
  refreshToken : String
  refreshExpires : Int
  skypeToken : String
  expiresIn : Int

/-- Machine state: `_tokens`, `_skypeAuth`, the callbacks attached to the
pending auth promise, the ready microtask queue, the network phase, the
issue log, and for each completed caller the token its API request
carried. -/
structure MState where
  skype : Option TokenData
  skypeRefresh : Option TokenData
  authStat : AuthStat
  pendingCbs : List Cb
  queue : List Cb
  netPhase : NetPhase
  log : List NetEv
  results : List (Nat × String)

/-- One machine step. Microtasks run first; when the queue is empty a
pending network operation completes (a macrotask). `none` means halted.

A `call` with a pending auth attaches (line 173); with a settled,
not-yet-cleared auth the attached retry is immediately enqueued; with no
auth the body of lines 175-186 runs: a valid skype token makes the auth a
resolved promise whose `finally` (clear) and request continuation are
enqueued, otherwise the refresh path is started with the `finally` and the
request continuation parked on the pending promise. -/
def step (env : MEnv) (s : MState) : Option MState :=
  match s.queue with
  | .call c :: rest =>
    match s.authStat with
    | .pendingAuth =>
      some { s with queue := rest, pendingCbs := s.pendingCbs ++ [.call c] }
    | .settledAuth =>
      some { s with queue := rest ++ [.call c] }
    | .noAuth =>
      if tokenValid s.skype env.now then
        some { s with authStat := .settledAuth,
                      queue := rest ++ [.clearAuth, .apiReq c] }
      else if tokenValid s.skypeRefresh env.now then
        some { s with authStat := .pendingAuth,
                      pendingCbs := [.clearAuth, .apiReq c],
                      netPhase := .exchanging,
                      log := s.log ++ [.exchangeIssued],
                      queue := rest }
      else
        some { s with authStat := .pendingAuth,
                      pendingCbs := [.clearAuth, .apiReq c],
                      netPhase := .fetching,
                      log := s.log ++ [.fetchIssued],
                      queue := rest }
  | .clearAuth :: rest =>
    some { s with authStat := .noAuth, queue := rest }
  | .apiReq c :: rest =>
    some { s with queue := rest,
                  results := s.results ++
                    [(c, match s.skype with | some d => d.token | none => "")] }
  | [] =>
    match s.netPhase with
    | .fetching =>
      some { s with skypeRefresh := some ⟨env.refreshToken, env.refreshExpires⟩,
                    netPhase := .exchanging,
                    log := s.log ++ [.exchangeIssued] }
    | .exchanging =>
      some { s with skype := some ⟨env.skypeToken, env.now + env.expiresIn⟩,
                    netPhase := .idle,
                    authStat := .settledAuth,
                    queue := s.pendingCbs,
                    pendingCbs := [] }
    | .idle => none

/-- Run the machine for at most `fuel` steps (it stays put once halted). -/
def run (env : MEnv) : Nat → MState → MState
  | 0, s => s
  | fuel + 1, s =>
    match step env s with
    | none => s
    | some s2 => run env fuel s2

/-- Initial state: cached tokens `sk`/`rf`, no auth in flight, and `n`
concurrent `skypeApiCall` invocations (callers 1..n) arriving in the same
turn of the event loop. -/
def initState (sk rf : Option TokenData) (n : Nat) : MState :=
  { skype := sk, skypeRefresh := rf, authStat := .noAuth, pendingCbs := [],
    queue := (List.range' 1 n).map Cb.call, netPhase := .idle, log := [],
    results := [] }

/-! ## API Gateway surface (`sendMessage`, `simpleRequest`, lines 147-162
and 434-477) -/

/-- The methods the `TeamsClient` class body declares (lines 113-429).
Notably there is no `editMessage`, although `src/index.js` line 114 calls
`teamsClient.editMessage(...)`. -/
def teamsClientMethods : List String :=
  ["constructor", "sendMessage", "skypeApiCall", "teamsApiCall",
   "_processMessage", "_connectSockets", "_handleSocketData",
   "_fetchSkypeRefreshToken", "_refreshSkypeToken"]

/-- The rejection `simpleRequest` produces from an HTTP status code
(lines 445-450): `none` means the response is accepted. -/
def simpleRequestStatusError (status : Nat) : Option String :=
  if status ≥ 300 then
    some (if status == 401 || status == 403 then "unauthorized" else "request_failed")
  else none

/-- The rejection on the socket timeout event (line 469); the timeout
passed by `skypeApiCall`/`sendMessage` is 4000 ms (line 193). -/
def simpleRequestTimeoutReject : String := "request_timed_out"

def skypeApiTimeoutMs : Nat := 4000

/-! ## Concrete instances used by the theorems -/

/-- A `JSON.parse` oracle that fails on every input (adequate wherever the
parsed text is not valid JSON, or parsing is never reached). -/
def jpNone : String → Option Json := fun _ => none

/-- A classifier stub that never throws. -/
def ptFalse : Json → Bool := fun _ => false

/-- The `resource.properties.meeting` JSON text of a detail update ... -/
def meetingPropStr : String :=
  "\x7b\"meetingtitle\":\"T\",\"meetingJoinUrl\":\"u\",\"organizerId\":\"o\"\x7d"

/-- ... and the value `JSON.parse` yields on it. -/
def meetingPropObj : Json :=
  .obj [("meetingtitle", .str "T"), ("meetingJoinUrl", .str "u"),
        ("organizerId", .str "o")]

/-- A `JSON.parse` oracle defined exactly on `meetingPropStr`. -/
def jpMeeting : String → Option Json :=
  fun s => if s = meetingPropStr then some meetingPropObj else none

/-- The ended-call markup of the spec's participant-extraction example. -/
def exMarkup : String :=
  "<ended/><part identity=\"8:user1\"><displayName>Alice</displayName></part><part identity=\"28:bot1\"><displayName>Bot</displayName></part>"

/-- Call-start notification: resource id `X`, skypeguid `G`. -/
def c2start : Envelope :=
  ⟨"NewMessage", 1000, ⟨"Event/Call", "started", "X", "G", "CH", []⟩⟩

/-- Detail update for resource id `X`, skypeguid `G`, carrying the meeting
description. -/
def c2upd : Envelope :=
  ⟨"MessageUpdate", 0, ⟨"Event/Call", "", "X", "G", "CH",
    [("meeting", .str meetingPropStr)]⟩⟩

/-- A later detail update whose resource id IS the meeting's skypeguid
`G`: it hits the resolved-Meeting cache entry stored at line 290, whose
`Date.now() - entry` comparison is `NaN > 60000 = false`. -/
def c2updG : Envelope :=
  ⟨"MessageUpdate", 0, ⟨"Event/Call", "", "G", "G", "CH",
    [("meeting", .str meetingPropStr)]⟩⟩

/-- The Meeting record lines 279-287 build from `c2upd`. -/
def c2meeting : Meeting :=
  ⟨"G", some (.str "T"), some (.str "u"), some (.str "o"), "CH"⟩

/-- An unrelated ordinary message following the meeting (its resource type
is not MessageUpdate, so it cannot re-emit). -/
def c2benign : Envelope :=
  ⟨"NewMessage", 0, ⟨"RichText/Html", "hello", "Q", "H", "CH", []⟩⟩

/-- A resolved Meeting sitting in the cache under id `G`. -/
def resolvedG : Meeting := ⟨"G", none, none, none, "CH"⟩

/-- A termination notification (`<ended/>`) for skypeguid `G` with one
well-formed participant record. -/
def endedMsgG : Envelope :=
  ⟨"NewMessage", 0,
   ⟨"Event/Call",
    "<ended/><part identity=\"8:u1\"><displayName>Al</displayName></part>",
    "X2", "G", "CH", []⟩⟩

/-- A termination notification whose markup has a `<part ...>` tag with no
identity attribute: `idMatch[1]` throws a TypeError. -/
def badEndedMsg : Envelope :=
  ⟨"NewMessage", 0, ⟨"Event/Call", "<ended/><part nope>", "X", "G", "CH", []⟩⟩

/-- An ordinary (non-call) new message envelope. -/
def ordinaryNewMsg : Envelope :=
  ⟨"NewMessage", 0, ⟨"RichText/Html", "<p>hello</p>", "mid1", "", "CH", []⟩⟩

/-- An ordinary message edit envelope. -/
def ordinaryEditMsg : Envelope :=
  ⟨"MessageUpdate", 0, ⟨"RichText/Html", "<p>edited</p>", "mid1", "", "CH", []⟩⟩

/-- A typing-indicator envelope (`Control/Typing` message type). -/
def typingMsg : Envelope :=
  ⟨"NewMessage", 0, ⟨"Control/Typing", "", "mid2", "", "CH", []⟩⟩

/-- Does an event announce a new meeting with meeting id `g`? -/
def isNewMeetingFor (g : String) : Ev → Bool
  | .newMeeting m => m.mid == g
  | .meetingEnded _ => false

/-- Machine environment of the C4 boundary counterexample: `Date.now()/1000
= 100` and a cached API token expiring at 160, i.e. valid for exactly 60
more seconds. -/
def cexEnv : MEnv := ⟨100, "r", 99999, "s", 99999⟩

/-! ## Helper lemmas -/

theorem lookup_eraseKey_self (k : String) (c : Cache) :
    List.lookup k (eraseKey k c) = none := by
  induction c with
  | nil => rfl
  | cons p rest ih =>
    by_cases h : p.1 = k
    · simpa [eraseKey, List.filter_cons, h] using ih
    · have hk : (k == p.1) = false := by
        simp only [beq_eq_false_iff_ne, ne_eq]
        exact fun e => h e.symm
      simpa [eraseKey, List.filter_cons, h, List.lookup, hk] using ih

theorem run_halt (env : MEnv) (s : MState) (h : step env s = none) :
    ∀ m, run env m s = s := by
  intro m
  cases m with
  | zero => rfl
  | succ m => simp [run, h]

theorem run_add (env : MEnv) :
    ∀ (a b : Nat) (s : MState), run env (a + b) s = run env b (run env a s) := by
  intro a
  induction a with
  | zero =>
    intro b s
    simp [run]
  | succ a ih =>
    intro b s
    rw [Nat.succ_add]
    cases h : step env s with
    | none =>
      rw [run_halt env s h, run_halt env s h, run_halt env s h]
    | some s2 =>
      have h1 : run env (a + 1) s = run env a s2 := by simp [run, h]
      have h2 : run env (a + b + 1) s = run env (a + b) s2 := by simp [run, h]
      rw [h2, ih b s2, h1]

theorem run_attach (env : MEnv) :
    ∀ (cs : List Nat) (s : MState), s.authStat = .pendingAuth →
      s.queue = cs.map Cb.call →
      run env cs.length s =
        { s with queue := [], pendingCbs := s.pendingCbs ++ cs.map Cb.call } := by
  intro cs
  induction cs with
  | nil =>
    intro s ha hq
    obtain ⟨sk, rf, a, pc, q, np, lg, res⟩ := s
    simp at ha hq
    simp [run, hq]
  | cons c cs ih =>
    intro s ha hq
    obtain ⟨sk, rf, a, pc, q, np, lg, res⟩ := s
    simp at ha hq
    subst ha hq
    have hstep :
        step env ⟨sk, rf, .pendingAuth, pc, Cb.call c :: cs.map Cb.call, np, lg, res⟩
          = some ⟨sk, rf, .pendingAuth, pc ++ [Cb.call c], cs.map Cb.call, np, lg, res⟩ := by
      simp [step]
    have : run env (cs.length + 1)
        ⟨sk, rf, .pendingAuth, pc, Cb.call c :: cs.map Cb.call, np, lg, res⟩
        = run env cs.length
        ⟨sk, rf, .pendingAuth, pc ++ [Cb.call c], cs.map Cb.call, np, lg, res⟩ := by
      simp [run, hstep]
    rw [List.length_cons, this, ih _ rfl rfl]
    simp

theorem run_rotate (env : MEnv) :
    ∀ (cs : List Nat) (tail : List Cb) (s : MState), s.authStat = .settledAuth →
      s.queue = cs.map Cb.call ++ tail →
      run env cs.length s = { s with queue := tail ++ cs.map Cb.call } := by
  intro cs
  induction cs with
  | nil =>
    intro tail s ha hq
    obtain ⟨sk, rf, a, pc, q, np, lg, res⟩ := s
    simp at ha hq
    simp [run, hq]
  | cons c cs ih =>
    intro tail s ha hq
    obtain ⟨sk, rf, a, pc, q, np, lg, res⟩ := s
    simp at ha hq
    subst ha hq
    have hstep :
        step env ⟨sk, rf, .settledAuth, pc, Cb.call c :: (cs.map Cb.call ++ tail), np, lg, res⟩
          = some ⟨sk, rf, .settledAuth, pc, (cs.map Cb.call ++ tail) ++ [Cb.call c], np, lg, res⟩ := by
      simp [step]
    have hrun : run env (cs.length + 1)
        ⟨sk, rf, .settledAuth, pc, Cb.call c :: (cs.map Cb.call ++ tail), np, lg, res⟩
        = run env cs.length
        ⟨sk, rf, .settledAuth, pc, (cs.map Cb.call ++ tail) ++ [Cb.call c], np, lg, res⟩ := by
      simp [run, hstep]
    rw [List.length_cons, hrun]
    have := ih (tail ++ [Cb.call c])
      ⟨sk, rf, .settledAuth, pc, (cs.map Cb.call ++ tail) ++ [Cb.call c], np, lg, res⟩
      rfl (by simp)
    rw [this]
    simp

theorem run_drain (env : MEnv) (d : TokenData)
    (hv : tokenValid (some d) env.now = true) :
    ∀ (ks : List Nat) (c : Nat) (s : MState), s.skype = some d →
      s.netPhase = .idle → s.authStat = .settledAuth →
      s.queue = Cb.clearAuth :: Cb.apiReq c :: ks.map Cb.call →
      ∃ fuel, run env fuel s =
        { s with authStat := .noAuth, queue := [],
                 results := s.results ++ (c :: ks).map (fun k => (k, d.token)) } := by
  intro ks
  induction ks with
  | nil =>
    intro c s hsk hnp ha hq
    obtain ⟨sk, rf, a, pc, q, np, lg, res⟩ := s
    simp at hsk hnp ha hq
    subst hsk hnp ha hq
    refine ⟨2, ?_⟩
    simp [run, step]
  | cons k ks ih =>
    intro c s hsk hnp ha hq
    obtain ⟨sk, rf, a, pc, q, np, lg, res⟩ := s
    simp at hsk hnp ha hq
    subst hsk hnp ha hq
    have h3 : run env 3
        ⟨some d, rf, .settledAuth, pc,
          Cb.clearAuth :: Cb.apiReq c :: Cb.call k :: ks.map Cb.call, .idle, lg, res⟩
        = ⟨some d, rf, .settledAuth, pc,
            ks.map Cb.call ++ [Cb.clearAuth, Cb.apiReq k], .idle, lg,
            res ++ [(c, d.token)]⟩ := by
      simp [run, step, hv]
    have hrot : run env ks.length
        ⟨some d, rf, .settledAuth, pc,
          ks.map Cb.call ++ [Cb.clearAuth, Cb.apiReq k], .idle, lg,
          res ++ [(c, d.token)]⟩
        = ⟨some d, rf, .settledAuth, pc,
            Cb.clearAuth :: Cb.apiReq k :: ks.map Cb.call, .idle, lg,
            res ++ [(c, d.token)]⟩ := by
      have := run_rotate env ks [Cb.clearAuth, Cb.apiReq k]
        ⟨some d, rf, .settledAuth, pc,
          ks.map Cb.call ++ [Cb.clearAuth, Cb.apiReq k], .idle, lg,
          res ++ [(c, d.token)]⟩ rfl rfl
      simpa using this
    obtain ⟨f, hf⟩ := ih k
      ⟨some d, rf, .settledAuth, pc,
        Cb.clearAuth :: Cb.apiReq k :: ks.map Cb.call, .idle, lg,
        res ++ [(c, d.token)]⟩ rfl rfl rfl rfl
    refine ⟨3 + ks.length + f, ?_⟩
    rw [run_add, run_add, h3, hrot, hf]
    simp

theorem partRecord_no_bot (part : List Char) (r : Participant)
    (h : partRecord part = .ok (some r)) : hasBotPrefix r.pid = false := by
  unfold partRecord at h
  cases hc : captureAfter ("identity=\"".toList) '"' part with
  | none => rw [hc] at h; exact absurd h (by simp)
  | some idCs =>
    rw [hc] at h
    simp only at h
    by_cases hb : hasBotPrefix (String.mk idCs)
    · rw [if_pos hb] at h
      exact absurd h (by simp)
    · rw [if_neg hb] at h
      cases hn : captureAfter ("<displayName>".toList) '<' part with
      | none => rw [hn] at h; exact absurd h (by simp)
      | some nameCs =>
        rw [hn] at h
        simp only [Except.ok.injEq, Option.some.injEq] at h
        rw [← h]
        simpa using hb

theorem collectParts_no_bot (l : List (List Char)) (ps : List Participant)
    (h : collectParts l = .ok ps) : ∀ p ∈ ps, hasBotPrefix p.pid = false := by
  induction l generalizing ps with
  | nil =>
    simp [collectParts] at h
    subst h
    intro p hp
    exact absurd hp (by simp)
  | cons part rest ih =>
    unfold collectParts at h
    cases hr : partRecord part with
    | error e => rw [hr] at h; exact absurd h (by simp)
    | ok o =>
      rw [hr] at h
      cases o with
      | none => exact ih ps h
      | some r =>
        simp only at h
        cases hrest : collectParts rest with
        | error e => rw [hrest] at h; exact absurd h (by simp [Except.map])
        | ok rs =>
          rw [hrest] at h
          simp only [Except.map, Except.ok.injEq] at h
          subst h
          intro p hp
          rcases List.mem_cons.mp hp with hpr | hprs
          · subst hpr
            exact partRecord_no_bot part p hr
          · exact ih rs hrest p hprs

theorem participantsOf_no_bot (content : String) (ps : List Participant)
    (h : participantsOf content = .ok ps) :
    ∀ p ∈ ps, hasBotPrefix p.pid = false :=
  collectParts_no_bot _ ps h

/-- A NEW_MEETING event can only come out of the MessageUpdate branch, and
its meeting id is always the triggering envelope's `resource.skypeguid`. -/
theorem newMeeting_source (jp : String → Option Json) (now : Int) (cache : Cache)
    (msg : Envelope) (m : Meeting)
    (h : Ev.newMeeting m ∈ (processMessage jp now cache msg).events) :
    msg.resourceType = "MessageUpdate" ∧ m.mid = msg.resource.skypeguid := by
  unfold processMessage at h
  split at h
  · split at h
    · split at h
      · exact absurd h (by simp)
      · exact absurd h (by simp)
    · exact absurd h (by simp)
  · split at h
    · rename_i hcond
      split at h
      · exact absurd h (by simp)
      · split at h
        · exact absurd h (by simp)
        · split at h
          · exact absurd h (by simp)
          · split at h
            · exact absurd h (by simp)
            · split at h
              · exact absurd h (by simp)
              · exact absurd h (by simp)
              · simp only [List.mem_singleton, Ev.newMeeting.injEq] at h
                subst h
                exact ⟨hcond.1, rfl⟩
    · exact absurd h (by simp)

theorem processAll_no_newMeeting_for (jp : String → Option Json) (g : String) :
    ∀ (trace : List (Int × Envelope)) (cache : Cache),
      (∀ pr ∈ trace, pr.2.resourceType = "MessageUpdate" →
        pr.2.resource.skypeguid ≠ g) →
      (processAll jp trace cache).2.filter (isNewMeetingFor g) = [] := by
  intro trace
  induction trace with
  | nil => intro cache _; rfl
  | cons pr rest ih =>
    intro cache hno
    obtain ⟨now, msg⟩ := pr
    simp only [processAll, List.filter_append]
    rw [List.append_eq_nil]
    constructor
    · rw [List.filter_eq_nil_iff]
      intro ev hev
      cases ev with
      | meetingEnded m => simp [isNewMeetingFor]
      | newMeeting m =>
        obtain ⟨hru, hmid⟩ := newMeeting_source jp now cache msg m hev
        have hg := hno (now, msg) (by simp) hru
        simp only [isNewMeetingFor, Bool.not_eq_true, beq_eq_false_iff_ne, ne_eq]
        rw [hmid]
        exact hg
    · exact ih _ (fun q hq => hno q (List.mem_cons_of_mem _ hq))

theorem frameTry_marker (jp : String → Option Json) (pd : String)
    (h : pd.toList.head? ≠ some '3') : frameTry jp pd = .ok none := by
  unfold frameTry
  cases hl : pd.toList with
  | nil => rfl
  | cons c cs =>
    rw [hl] at h
    simp only [List.head?_cons, ne_eq, Option.some.injEq] at h
    simp [h]

theorem frameTry_brace (jp : String → Option Json) (pd : String)
    (h3 : pd.toList.head? = some '3')
    (hb : (rawPayloadOf pd).toList.head? ≠ some '\x7b') :
    frameTry jp pd = .ok none := by
  unfold frameTry
  cases hl : pd.toList with
  | nil => rfl
  | cons c cs =>
    rw [hl] at h3
    simp only [List.head?_cons, Option.some.injEq] at h3
    subst h3
    simp only [ne_eq, not_true_eq_false, if_false]
    cases hr : (rawPayloadOf pd).toList with
    | nil => rfl
    | cons r rs =>
      rw [hr] at hb
      simp only [List.head?_cons, ne_eq, Option.some.injEq] at hb
      simp [hb]

theorem frameTry_jp_fails (jp : String → Option Json) (pd : String)
    (h3 : pd.toList.head? = some '3')
    (hb : (rawPayloadOf pd).toList.head? = some '\x7b')
    (hjp : jp (rawPayloadOf pd) = none) :
    frameTry jp pd = .error () := by
  unfold frameTry
  cases hl : pd.toList with
  | nil => rw [hl] at h3; exact absurd h3 (by simp)
  | cons c cs =>
    rw [hl] at h3
    simp only [List.head?_cons, Option.some.injEq] at h3
    subst h3
    simp only [ne_eq, not_true_eq_false, if_false]
    cases hr : (rawPayloadOf pd).toList with
    | nil => rw [hr] at hb; exact absurd hb (by simp)
    | cons r rs =>
      rw [hr] at hb
      simp only [List.head?_cons, Option.some.injEq] at hb
      subst hb
      simp [hjp]

theorem frameTry_forwarded (jp : String → Option Json) (pd : String) (i : Json)
    (h : frameTry jp pd = .ok (some i)) :
    ∃ payload body, jp (rawPayloadOf pd) = some payload ∧
      getField payload "body" = some body ∧ jp (jsToString body) = some i := by
  unfold frameTry at h
  cases hl : pd.toList with
  | nil => rw [hl] at h; exact absurd h (by simp)
  | cons c cs =>
    rw [hl] at h
    by_cases hc : c = '3'
    case neg => simp [hc] at h
    subst hc
    simp only [ne_eq, not_true_eq_false, if_false] at h
    cases hr : (rawPayloadOf pd).toList with
    | nil => rw [hr] at h; exact absurd h (by simp)
    | cons r rs =>
      rw [hr] at h
      by_cases hbr : r = '\x7b'
      case neg => simp [hbr] at h
      subst hbr
      simp only [ne_eq, not_true_eq_false, if_false] at h
      cases hjp : jp (rawPayloadOf pd) with
      | none => rw [hjp] at h; exact absurd h (by simp)
      | some payload =>
        rw [hjp] at h
        cases payload with
        | obj fs =>
          dsimp only at h
          cases hlk : fs.lookup "body" with
          | none => simp [hlk] at h
          | some body =>
            simp only [hlk] at h
            cases hbody : jp (jsToString body) with
            | none => simp [hbody] at h
            | some inner0 =>
              simp only [hbody, Except.ok.injEq, Option.some.injEq] at h
              subst h
              exact ⟨.obj fs, body, rfl, by simp [getField, hlk], hbody⟩
        | arr xs => simp at h
        | str s => simp at h
        | num n => simp at h
        | jbool b => simp at h
        | null => simp at h

/-! ## Claim theorems -/

/-- C3: frame decoding is total and never fatal: a frame not beginning
with the marker character '3' is silently discarded as not applicable, as
is one whose remainder after the 3rd colon does not begin with a brace; a
JSON parse failure of the remainder is logged and discarded; a payload is
forwarded to classification only if it carries a `body` field that itself
parses as JSON (and the classifier did not throw on it); and every frame
yields one of exactly these three outcomes — nothing escapes the
handler's catch. -/
theorem c3_frame_decode_total (jp : String → Option Json) (pt : Json → Bool)
    (pd : String) :
    (pd.toList.head? ≠ some '3' → handleFrame jp pt pd = .notApplicable) ∧
    (pd.toList.head? = some '3' →
      (rawPayloadOf pd).toList.head? ≠ some '\x7b' →
      handleFrame jp pt pd = .notApplicable) ∧
    (pd.toList.head? = some '3' →
      (rawPayloadOf pd).toList.head? = some '\x7b' →
      jp (rawPayloadOf pd) = none →
      handleFrame jp pt pd = .loggedDiscard) ∧
    (∀ inner, handleFrame jp pt pd = .forwarded inner →
      ∃ payload body, jp (rawPayloadOf pd) = some payload ∧
        getField payload "body" = some body ∧
        jp (jsToString body) = some inner ∧ pt inner = false) ∧
    (handleFrame jp pt pd = .notApplicable ∨
     handleFrame jp pt pd = .loggedDiscard ∨
     ∃ inner, handleFrame jp pt pd = .forwarded inner) := by
  refine ⟨?_, ?_, ?_, ?_, ?_⟩
  · intro h
    simp [handleFrame, frameTry_marker jp pd h]
  · intro h3 hb
    simp [handleFrame, frameTry_brace jp pd h3 hb]
  · intro h3 hb hjp
    simp [handleFrame, frameTry_jp_fails jp pd h3 hb hjp]
  · intro inner h
    unfold handleFrame at h
    cases hft : frameTry jp pd with
    | error e => rw [hft] at h; exact absurd h (by simp)
    | ok o =>
      rw [hft] at h
      cases o with
      | none => exact absurd h (by simp)
      | some j =>
        dsimp only at h
        cases hpt : pt j with
        | true => simp [hpt] at h
        | false =>
          rw [hpt] at h
          simp only [Bool.false_eq_true, if_false, FrameOutcome.forwarded.injEq] at h
          subst h
          obtain ⟨payload, body, h1, h2, h3⟩ := frameTry_forwarded jp pd j hft
          exact ⟨payload, body, h1, h2, h3, hpt⟩
  · cases hh : handleFrame jp pt pd with
    | notApplicable => exact Or.inl rfl
    | loggedDiscard => exact Or.inr (Or.inl rfl)
    | forwarded i => exact Or.inr (Or.inr ⟨i, rfl⟩)

/-- Witness for C3: the three hypothesis-bearing clauses discharged at
concrete frames — a frame with the wrong marker, a marked frame whose
remainder lacks the brace, and a marked braced frame whose JSON is
invalid. -/
theorem c3_frame_decode_total_witness :
    handleFrame jpNone ptFalse "x" = .notApplicable ∧
    handleFrame jpNone ptFalse "3:a:b:nope" = .notApplicable ∧
    handleFrame jpNone ptFalse "3:a:b:\x7boops" = .loggedDiscard :=
  ⟨(c3_frame_decode_total jpNone ptFalse "x").1 (by decide),
   (c3_frame_decode_total jpNone ptFalse "3:a:b:nope").2.1 (by decide) (by decide),
   (c3_frame_decode_total jpNone ptFalse "3:a:b:\x7boops").2.2.1 (by decide) (by decide) rfl⟩

/-- C10: the never-throws guarantee of the socket handler covers only the
captured frame payload. A devtools message whose raw text is not valid
JSON makes the initial `JSON.parse` (line 315) throw past the handler,
while the same invalid text inside a captured frame payload is caught by
the `try`/`catch` and merely logged/discarded. -/
theorem c10_socket_parse_throws_past_handler :
    handleSocketData jpNone ptFalse "not json" = .error () ∧
    handleFrame jpNone ptFalse "3:a:b:\x7bbad" = .loggedDiscard :=
  ⟨rfl, rfl⟩

/-- C8 (code bug): the classifier emits nothing at all for ordinary
message create/update envelopes and typing indicators — `_processMessage`
only handles `Event/Call` resources, and no `emit` of NEW_MESSAGE,
MESSAGE_EDITED, MESSAGE_DELETED or CHAT_USER_TYPING exists in the source,
although the `events` enumeration documents them and `src/index.js`
subscribes to NEW_MESSAGE. -/
theorem c8_no_message_events_emitted :
    processMessage jpNone 0 [] ordinaryNewMsg = ⟨[], [], false⟩ ∧
    processMessage jpNone 0 [] ordinaryEditMsg = ⟨[], [], false⟩ ∧
    processMessage jpNone 0 [] typingMsg = ⟨[], [], false⟩ :=
  ⟨rfl, rfl, rfl⟩

/-- C9 (code bug): `sendMessage` exists but `editMessage` is absent from
the `TeamsClient` class body (its invocation at `src/index.js` line 114
would throw a TypeError); the outbound error mapping of `simpleRequest`
does hold: 401/403 → unauthorized, any other status ≥ 300 → request
failed, socket timeout (4000 ms) → request timed out. -/
theorem c9_editMessage_missing_and_error_mapping :
    ("sendMessage" ∈ teamsClientMethods ∧ "editMessage" ∉ teamsClientMethods) ∧
    simpleRequestStatusError 401 = some "unauthorized" ∧
    simpleRequestStatusError 403 = some "unauthorized" ∧
    simpleRequestStatusError 500 = some "request_failed" ∧
    simpleRequestStatusError 301 = some "request_failed" ∧
    simpleRequestStatusError 200 = none ∧
    simpleRequestTimeoutReject = "request_timed_out" ∧
    skypeApiTimeoutMs = 4000 := by
  decide

set_option maxRecDepth 100000 in
/-- C7: participant extraction pulls identity and display name from the
`<part identity="...">` / `<displayName>` tagged fields, excludes every
record whose identity begins with the reserved bot prefix `28`, and on the
spec's example markup yields exactly `[{id: 8:user1, name: Alice}]`. -/
theorem c7_participant_extraction :
    (∀ content ps, participantsOf content = .ok ps →
      ∀ p ∈ ps, hasBotPrefix p.pid = false) ∧
    participantsOf exMarkup = .ok [⟨"8:user1", "Alice"⟩] := by
  constructor
  · exact fun content ps h => participantsOf_no_bot content ps h
  · rfl

/-- Witness for C7: the general bot-exclusion applied at the example
markup, whose extraction result is supplied by the theorem itself. -/
theorem c7_participant_extraction_witness :
    ∀ p ∈ [(⟨"8:user1", "Alice"⟩ : Participant)], hasBotPrefix p.pid = false :=
  c7_participant_extraction.1 exMarkup _ c7_participant_extraction.2

set_option maxRecDepth 100000 in
/-- C6 counterexample: a termination notification for skypeguid `G` emits
MEETING_ENDED but does NOT remove the cache entry stored under `G` (no
branch of lines 214-248 touches `_cache.meetings`); moreover a
termination whose markup has a `<part ...>` tag without an identity
attribute throws a TypeError inside `_processMessage`. -/
theorem c6_ended_keeps_cache_and_can_throw :
    (processMessage jpNone 0 [("G", .resolvedMeeting resolvedG)] endedMsgG).cache
        = [("G", .resolvedMeeting resolvedG)] ∧
    (processMessage jpNone 0 [("G", .resolvedMeeting resolvedG)] endedMsgG).events
        = [.meetingEnded ⟨"G", [⟨"8:u1", "Al"⟩], "CH"⟩] ∧
    (processMessage jpNone 0 [] badEndedMsg).threw = true :=
  ⟨rfl, rfl, rfl⟩

/-- C6 (amended): on an explicit call-termination notification, from any
correlator state, MEETING_ENDED is emitted with the extracted participant
list; the cache is left untouched (no pending or resolved entry is
removed), and — provided participant extraction succeeds on the markup —
the call never throws, in particular a termination for an id with no
prior entry emits the event and changes no state. -/
theorem c6_meeting_ended_any_state (jp : String → Option Json) (now t : Int)
    (cache : Cache) (content rid guid ch : String) (props : List (String × Json))
    (hend : containsSub content.toList ("<ended/>".toList) = true)
    (ps : List Participant) (hok : participantsOf content = .ok ps) :
    processMessage jp now cache
        ⟨"NewMessage", t, ⟨"Event/Call", content, rid, guid, ch, props⟩⟩
      = ⟨cache, [.meetingEnded ⟨guid, ps, ch⟩], false⟩ := by
  have hend2 : containsSub content.data ['<', 'e', 'n', 'd', 'e', 'd', '/', '>'] = true := hend
  simp [processMessage, hend2, hok]

/-- Witness for C6's amended theorem: empty cache (no prior entry). -/
theorem c6_meeting_ended_any_state_witness :
    processMessage jpNone 0 []
        ⟨"NewMessage", 0, ⟨"Event/Call", "<ended/>", "X", "G", "CH", []⟩⟩
      = ⟨[], [.meetingEnded ⟨"G", [], "CH"⟩], false⟩ :=
  c6_meeting_ended_any_state jpNone 0 0 [] "<ended/>" "X" "G" "CH" []
    (by rfl) [] (by rfl)

set_option maxRecDepth 100000 in
/-- C2 counterexample: after a start (resource id X) and an in-window
detail update (resource id X, skypeguid G) have produced one NEW_MEETING,
a later MessageUpdate whose resource id equals the meeting's skypeguid G
finds the resolved-Meeting cache entry stored at line 290; the
`Date.now() - entry` staleness test on that object is `NaN > 60000 =
false`, so the branch runs again and a second NEW_MEETING for the same
meeting G is emitted — refuting "no further NEW_MEETING event is ever
emitted for that same meeting". -/
theorem c2_new_meeting_reemitted :
    (processAll jpMeeting [(1000, c2start), (2000, c2upd), (999999, c2updG)] []).2
      = [.newMeeting c2meeting, .newMeeting c2meeting] := rfl

/-- C2 (amended): a call-start notification followed within 60 seconds by
a detail update (same resource id) whose meeting description carries a
join URL emits exactly one NEW_MEETING, with the meeting id and channel
id from the envelope and title/joinUrl/startedBy from the description;
and no later traffic emits a further NEW_MEETING for that meeting id,
provided no later MessageUpdate envelope itself carries that skypeguid
(the counterexample shows the code re-emits when one does). -/
theorem c2_new_meeting_exactly_once (jp : String → Option Json)
    (t1 n1 now2 tu : Int) (c1 x g g1 ch1 ch2 cu : String)
    (props1 propsU : List (String × Json)) (mval mdata : Json)
    (rest : List (Int × Envelope))
    (hc1 : containsSub c1.toList ("<ended/>".toList) = false)
    (htime : ¬(now2 - t1 > 60 * 1000))
    (hprop : List.lookup "meeting" propsU = some mval)
    (hjp : jp (jsToString mval) = some mdata)
    (hjoin : inField mdata "meetingJoinUrl" = .ok true)
    (hrest : ∀ pr ∈ rest, pr.2.resourceType = "MessageUpdate" →
      pr.2.resource.skypeguid ≠ g) :
    ∃ tailEvs,
      (processAll jp
          ((n1, ⟨"NewMessage", t1, ⟨"Event/Call", c1, x, g1, ch1, props1⟩⟩) ::
           (now2, ⟨"MessageUpdate", tu, ⟨"Event/Call", cu, x, g, ch2, propsU⟩⟩) ::
           rest) []).2
        = .newMeeting ⟨g, getField mdata "meetingtitle",
            getField mdata "meetingJoinUrl", getField mdata "organizerId",
            ch2⟩ :: tailEvs ∧
      tailEvs.filter (isNewMeetingFor g) = [] := by
  have hc1d : containsSub c1.data ['<', 'e', 'n', 'd', 'e', 'd', '/', '>'] = false := hc1
  have hs : staleExceeds (CacheEntry.startedAt t1) now2 = false := by
    simp only [staleExceeds, decide_eq_false_iff_not]
    exact htime
  have h1 : processMessage jp n1 []
      ⟨"NewMessage", t1, ⟨"Event/Call", c1, x, g1, ch1, props1⟩⟩
      = ⟨[(x, .startedAt t1)], [], false⟩ := by
    simp [processMessage, hc1d, setKey]
  have h2 : processMessage jp now2 [(x, .startedAt t1)]
      ⟨"MessageUpdate", tu, ⟨"Event/Call", cu, x, g, ch2, propsU⟩⟩
      = ⟨[(g, .resolvedMeeting ⟨g, getField mdata "meetingtitle",
            getField mdata "meetingJoinUrl", getField mdata "organizerId", ch2⟩)],
         [.newMeeting ⟨g, getField mdata "meetingtitle",
            getField mdata "meetingJoinUrl", getField mdata "organizerId", ch2⟩],
         false⟩ := by
    simp [processMessage, hs, hprop, hjp, hjoin, setKey, eraseKey, List.lookup]
  refine ⟨(processAll jp rest
      [(g, .resolvedMeeting ⟨g, getField mdata "meetingtitle",
        getField mdata "meetingJoinUrl", getField mdata "organizerId", ch2⟩)]).2,
    ?_, ?_⟩
  · simp [processAll, h1, h2]
  · exact processAll_no_newMeeting_for jp g rest _ hrest

/-- Witness for C2's amended theorem: the spec's example trace followed by
an unrelated ordinary message. -/
theorem c2_new_meeting_exactly_once_witness :
    ∃ tailEvs,
      (processAll jpMeeting [(1000, c2start), (2000, c2upd), (5000, c2benign)] []).2
        = .newMeeting ⟨"G", getField meetingPropObj "meetingtitle",
            getField meetingPropObj "meetingJoinUrl",
            getField meetingPropObj "organizerId", "CH"⟩ :: tailEvs ∧
      tailEvs.filter (isNewMeetingFor "G") = [] :=
  c2_new_meeting_exactly_once jpMeeting 1000 1000 2000 0 "started" "X" "G" "G"
    "CH" "CH" "" [] [("meeting", .str meetingPropStr)] (.str meetingPropStr)
    meetingPropObj [(5000, c2benign)] (by rfl) (by decide) (by rfl) (by rfl)
    (by rfl)
    (by
      intro pr hpr h
      simp only [List.mem_singleton] at hpr
      rw [hpr] at h
      exact absurd h (by decide))

/-- C5: a detail update arriving more than 60 seconds after the stored
start timestamp produces no event and removes the pending entry; a third,
later update for the same id also produces nothing; a detail update for
an id that never had a start notification is silently ignored and never
throws. -/
theorem c5_stale_expiry (jp : String → Option Json) (cache : Cache)
    (x : String) (t1 now2 now3 tu : Int) (cu gu chu : String)
    (pu : List (String × Json))
    (hx : List.lookup x cache = some (.startedAt t1))
    (hstale : now2 - t1 > 60 * 1000)
    (y : String) (cacheY : Cache) (nowY ty : Int) (cy gy chy : String)
    (py : List (String × Json))
    (hy : List.lookup y cacheY = none) :
    processMessage jp now2 cache
        ⟨"MessageUpdate", tu, ⟨"Event/Call", cu, x, gu, chu, pu⟩⟩
      = ⟨eraseKey x cache, [], false⟩ ∧
    processMessage jp now3 (eraseKey x cache)
        ⟨"MessageUpdate", tu, ⟨"Event/Call", cu, x, gu, chu, pu⟩⟩
      = ⟨eraseKey x cache, [], false⟩ ∧
    processMessage jp nowY cacheY
        ⟨"MessageUpdate", ty, ⟨"Event/Call", cy, y, gy, chy, py⟩⟩
      = ⟨cacheY, [], false⟩ := by
  have hs : staleExceeds (CacheEntry.startedAt t1) now2 = true := by
    simp only [staleExceeds, decide_eq_true_eq]
    exact hstale
  refine ⟨?_, ?_, ?_⟩
  · simp [processMessage, hx, hs]
  · simp [processMessage, lookup_eraseKey_self]
  · simp [processMessage, hy]

/-- Witness for C5: entry stored at t=1000 ms, update at 62001 ms (61 s
later), a third update after that, and an update for the unseen id Y. -/
theorem c5_stale_expiry_witness :
    processMessage jpNone 62001 [("X", .startedAt 1000)]
        ⟨"MessageUpdate", 0, ⟨"Event/Call", "", "X", "G", "CH", []⟩⟩
      = ⟨eraseKey "X" [("X", .startedAt 1000)], [], false⟩ ∧
    processMessage jpNone 70000 (eraseKey "X" [("X", .startedAt 1000)])
        ⟨"MessageUpdate", 0, ⟨"Event/Call", "", "X", "G", "CH", []⟩⟩
      = ⟨eraseKey "X" [("X", .startedAt 1000)], [], false⟩ ∧
    processMessage jpNone 0 []
        ⟨"MessageUpdate", 0, ⟨"Event/Call", "", "Y", "G", "CH", []⟩⟩
      = ⟨[], [], false⟩ :=
  c5_stale_expiry jpNone [("X", .startedAt 1000)] "X" 1000 62001 70000 0 "" "G" "CH" []
    (by rfl) (by decide) "Y" [] 0 0 "" "G" "CH" [] (by rfl)

/-- C1: single-flight credential refresh. For any `n ≥ 1` concurrent
`skypeApiCall` invocations arriving while no credential is cached and no
auth is in flight, the run completes having issued exactly one
refresh-credential extraction and exactly one API-credential exchange (in
that order), and every one of the `n` callers' API requests carries the
same freshly exchanged token. Callers 2..n attach to caller 1's in-flight
`_skypeAuth`; their retries find the fresh token valid and never touch
the network again. -/
theorem c1_single_flight (env : MEnv) (n : Nat) (hn : 1 ≤ n)
    (htok : env.skypeToken ≠ "") (hexp : 60 < env.expiresIn) :
    ∃ fuel,
      (run env fuel (initState none none n)).log
        = [.fetchIssued, .exchangeIssued] ∧
      (run env fuel (initState none none n)).results
        = (List.range' 1 n).map (fun c => (c, env.skypeToken)) ∧
      step env (run env fuel (initState none none n)) = none := by
  obtain ⟨m, rfl⟩ : ∃ m, n = m + 1 := ⟨n - 1, (Nat.succ_pred_eq_of_pos hn).symm⟩
  have hv : tokenValid (some ⟨env.skypeToken, env.now + env.expiresIn⟩) env.now
      = true := by
    have hlt : env.now < env.now + env.expiresIn - 60 := by omega
    simp [tokenValid, htok, hlt]
  -- caller 1 starts the refresh; no token is valid
  have h1 : run env 1 (initState none none (m + 1))
      = ⟨none, none, .pendingAuth, [.clearAuth, .apiReq 1],
         (List.range' 2 m).map Cb.call, .fetching, [.fetchIssued], []⟩ := by
    simp [run, step, initState, tokenValid, List.range'_succ]
  -- callers 2..n attach to the pending auth
  have h2 : run env m
      ⟨none, none, .pendingAuth, [.clearAuth, .apiReq 1],
        (List.range' 2 m).map Cb.call, .fetching, [.fetchIssued], []⟩
      = ⟨none, none, .pendingAuth,
          Cb.clearAuth :: Cb.apiReq 1 :: (List.range' 2 m).map Cb.call,
          [], .fetching, [.fetchIssued], []⟩ := by
    have := run_attach env (List.range' 2 m)
      ⟨none, none, .pendingAuth, [.clearAuth, .apiReq 1],
        (List.range' 2 m).map Cb.call, .fetching, [.fetchIssued], []⟩ rfl rfl
    rw [List.length_range'] at this
    simpa using this
  -- the extraction completes, the exchange is issued
  have h3 : run env 1
      ⟨none, none, .pendingAuth,
        Cb.clearAuth :: Cb.apiReq 1 :: (List.range' 2 m).map Cb.call,
        [], .fetching, [.fetchIssued], []⟩
      = ⟨none, some ⟨env.refreshToken, env.refreshExpires⟩, .pendingAuth,
          Cb.clearAuth :: Cb.apiReq 1 :: (List.range' 2 m).map Cb.call,
          [], .exchanging, [.fetchIssued, .exchangeIssued], []⟩ := by
    simp [run, step]
  -- the exchange completes, the auth promise settles, callbacks run
  have h4 : run env 1
      ⟨none, some ⟨env.refreshToken, env.refreshExpires⟩, .pendingAuth,
        Cb.clearAuth :: Cb.apiReq 1 :: (List.range' 2 m).map Cb.call,
        [], .exchanging, [.fetchIssued, .exchangeIssued], []⟩
      = ⟨some ⟨env.skypeToken, env.now + env.expiresIn⟩,
          some ⟨env.refreshToken, env.refreshExpires⟩, .settledAuth, [],
          Cb.clearAuth :: Cb.apiReq 1 :: (List.range' 2 m).map Cb.call,
          .idle, [.fetchIssued, .exchangeIssued], []⟩ := by
    simp [run, step]
  obtain ⟨f, hf⟩ := run_drain env ⟨env.skypeToken, env.now + env.expiresIn⟩ hv
    (List.range' 2 m) 1
    ⟨some ⟨env.skypeToken, env.now + env.expiresIn⟩,
      some ⟨env.refreshToken, env.refreshExpires⟩, .settledAuth, [],
      Cb.clearAuth :: Cb.apiReq 1 :: (List.range' 2 m).map Cb.call,
      .idle, [.fetchIssued, .exchangeIssued], []⟩ rfl rfl rfl rfl
  refine ⟨1 + m + 1 + 1 + f, ?_⟩
  rw [run_add, run_add, run_add, run_add, h1, h2, h3, h4, hf]
  simp [step, List.range'_succ]

/-- Witness for C1: three concurrent callers, a concrete environment. -/
theorem c1_single_flight_witness :
    ∃ fuel,
      (run ⟨100, "rt", 5000, "st", 86400⟩ fuel (initState none none 3)).log
        = [.fetchIssued, .exchangeIssued] ∧
      (run ⟨100, "rt", 5000, "st", 86400⟩ fuel (initState none none 3)).results
        = (List.range' 1 3).map (fun c => (c, "st")) ∧
      step ⟨100, "rt", 5000, "st", 86400⟩
        (run ⟨100, "rt", 5000, "st", 86400⟩ fuel (initState none none 3)) = none :=
  c1_single_flight ⟨100, "rt", 5000, "st", 86400⟩ 3 (by decide) (by decide)
    (by decide)

/-- C4 (amended): tiered credential acquisition with the strict margin the
code actually tests (`now < expires - 60`, line 176/179): an API
credential valid for strictly more than 60 s → zero network operations
and immediate resolution with the cached token; else a refresh credential
valid for strictly more than 60 s → only the API-credential exchange;
else the refresh-credential extraction followed by the exchange. -/
theorem c4_credential_tiers (env : MEnv) :
    (∀ (d : TokenData) (rf : Option TokenData),
      tokenValid (some d) env.now = true →
      (run env 3 (initState (some d) rf 1)).log = [] ∧
      (run env 3 (initState (some d) rf 1)).results = [(1, d.token)] ∧
      step env (run env 3 (initState (some d) rf 1)) = none) ∧
    (∀ (sk rf : Option TokenData),
      tokenValid sk env.now = false → tokenValid rf env.now = true →
      (run env 4 (initState sk rf 1)).log = [.exchangeIssued] ∧
      (run env 4 (initState sk rf 1)).results = [(1, env.skypeToken)] ∧
      step env (run env 4 (initState sk rf 1)) = none) ∧
    (∀ (sk rf : Option TokenData),
      tokenValid sk env.now = false → tokenValid rf env.now = false →
      (run env 5 (initState sk rf 1)).log = [.fetchIssued, .exchangeIssued] ∧
      (run env 5 (initState sk rf 1)).results = [(1, env.skypeToken)] ∧
      step env (run env 5 (initState sk rf 1)) = none) := by
  refine ⟨?_, ?_, ?_⟩
  · intro d rf hv
    refine ⟨?_, ?_, ?_⟩ <;> simp [initState, run, step, hv, List.range']
  · intro sk rf hsk hrf
    refine ⟨?_, ?_, ?_⟩ <;> simp [initState, run, step, hsk, hrf, List.range']
  · intro sk rf hsk hrf
    refine ⟨?_, ?_, ?_⟩ <;> simp [initState, run, step, hsk, hrf, List.range']

/-- C4 counterexample: at `Date.now()/1000 = 100` a cached API credential
`{token: "t", expires: 160}` is valid for at least 60 more seconds (the
claim's tier condition), yet `skypeApiCall` performs both network
operations — line 176 requires strictly `now < expires - 60`. -/
theorem c4_boundary_still_refreshes :
    ((160 : Int) - 100 ≥ 60) ∧ ("t" ≠ "") ∧
    (run cexEnv 10 (initState (some ⟨"t", 160⟩) none 1)).log
      = [.fetchIssued, .exchangeIssued] :=
  ⟨by decide, by decide, rfl⟩

/-- Witness for C4's amended theorem: all three tiers at concrete tokens
(`now = 100`; an API token expiring at 10000, a refresh token expiring at
10000, and the empty cache). -/
theorem c4_credential_tiers_witness :
    ((run ⟨100, "rt", 5000, "st", 86400⟩ 3
        (initState (some ⟨"t", 10000⟩) none 1)).log = [] ∧
      (run ⟨100, "rt", 5000, "st", 86400⟩ 3
        (initState (some ⟨"t", 10000⟩) none 1)).results = [(1, "t")] ∧
      step ⟨100, "rt", 5000, "st", 86400⟩
        (run ⟨100, "rt", 5000, "st", 86400⟩ 3
          (initState (some ⟨"t", 10000⟩) none 1)) = none) ∧
    ((run ⟨100, "rt", 5000, "st", 86400⟩ 4
        (initState none (some ⟨"r", 10000⟩) 1)).log = [.exchangeIssued] ∧
      (run ⟨100, "rt", 5000, "st", 86400⟩ 4
        (initState none (some ⟨"r", 10000⟩) 1)).results = [(1, "st")] ∧
      step ⟨100, "rt", 5000, "st", 86400⟩
        (run ⟨100, "rt", 5000, "st", 86400⟩ 4
          (initState none (some ⟨"r", 10000⟩) 1)) = none) ∧
    ((run ⟨100, "rt", 5000, "st", 86400⟩ 5
        (initState none none 1)).log = [.fetchIssued, .exchangeIssued] ∧
      (run ⟨100, "rt", 5000, "st", 86400⟩ 5
        (initState none none 1)).results = [(1, "st")] ∧
      step ⟨100, "rt", 5000, "st", 86400⟩
        (run ⟨100, "rt", 5000, "st", 86400⟩ 5
          (initState none none 1)) = none) :=
  ⟨(c4_credential_tiers ⟨100, "rt", 5000, "st", 86400⟩).1 ⟨"t", 10000⟩ none
      (by decide),
   (c4_credential_tiers ⟨100, "rt", 5000, "st", 86400⟩).2.1 none
      (some ⟨"r", 10000⟩) (by decide) (by decide),
   (c4_credential_tiers ⟨100, "rt", 5000, "st", 86400⟩).2.2 none none
      (by decide) (by decide)⟩

end ClassBot
